import Mathlib

/-!
Verification of the uuid47 library: a keyed, invertible transform between
UUIDv7 values and UUIDv4-looking facades.  UUIDs are modelled as lists of
16 byte values (natural numbers below 256); 64-bit machine arithmetic is
modelled on natural numbers with explicit reduction modulo 2 ^ 64.
-/

set_option maxRecDepth 100000

namespace Uuid47

/-! ## SipHash-2-4

The library delegates its keyed pseudorandom function to an external
SipHash-2-4 implementation (github.com/dchest/siphash).  The definitions
below embed the published SipHash-2-4 algorithm: 2 compression rounds per
8-byte little-endian word, a final word carrying the message length in its
top byte, and 4 finalization rounds.
-/

/-- State of the SipHash computation: four 64-bit words. -/
structure SipState where
  v0 : ℕ
  v1 : ℕ
  v2 : ℕ
  v3 : ℕ

/-- Rotate a 64-bit word left by b bits. -/
def rotl (x b : ℕ) : ℕ := ((x <<< b) ||| (x >>> (64 - b))) % 2 ^ 64

/-- One SipRound of the published SipHash algorithm. -/
def sipRound (s : SipState) : SipState :=
  let v0 := (s.v0 + s.v1) % 2 ^ 64
  let v1 := rotl s.v1 13
  let v1 := v1 ^^^ v0
  let v0 := rotl v0 32
  let v2 := (s.v2 + s.v3) % 2 ^ 64
  let v3 := rotl s.v3 16
  let v3 := v3 ^^^ v2
  let v0 := (v0 + v3) % 2 ^ 64
  let v3 := rotl v3 21
  let v3 := v3 ^^^ v0
  let v2 := (v2 + v1) % 2 ^ 64
  let v1 := rotl v1 17
  let v1 := v1 ^^^ v2
  let v2 := rotl v2 32
  ⟨v0, v1, v2, v3⟩

/-- Little-endian 64-bit word from a list of at most 8 bytes. -/
def leWord (l : List ℕ) : ℕ := l.foldr (fun b acc => (acc <<< 8) ||| b) 0

/-- Absorb one 64-bit message word: xor into v3, two SipRounds, xor into v0. -/
def sipCompress (s : SipState) (m : ℕ) : SipState :=
  let s1 : SipState := ⟨s.v0, s.v1, s.v2, s.v3 ^^^ m⟩
  let s2 := sipRound (sipRound s1)
  ⟨s2.v0 ^^^ m, s2.v1, s2.v2, s2.v3⟩

/-- Absorb all full 8-byte words of the message, returning the final state
and the leftover bytes (fewer than 8). -/
def sipBlocks : SipState → List ℕ → SipState × List ℕ
  | s, b0 :: b1 :: b2 :: b3 :: b4 :: b5 :: b6 :: b7 :: rest =>
      sipBlocks (sipCompress s (leWord [b0, b1, b2, b3, b4, b5, b6, b7])) rest
  | s, rest => (s, rest)

/-- SipHash-2-4 of a byte string under a 128-bit key given as two 64-bit
halves.  Matches siphash.Hash of github.com/dchest/siphash. -/
def siphash (k0 k1 : ℕ) (msg : List ℕ) : ℕ :=
  let s0 : SipState :=
    ⟨(k0 % 2 ^ 64) ^^^ 0x736f6d6570736575, (k1 % 2 ^ 64) ^^^ 0x646f72616e646f6d,
     (k0 % 2 ^ 64) ^^^ 0x6c7967656e657261, (k1 % 2 ^ 64) ^^^ 0x7465646279746573⟩
  let p := sipBlocks s0 msg
  let b := ((msg.length % 256) <<< 56) ||| leWord p.2
  let s2 := sipCompress p.1 b
  let s3 : SipState := ⟨s2.v0, s2.v1, s2.v2 ^^^ 0xff, s2.v3⟩
  let s4 := sipRound (sipRound (sipRound (sipRound s3)))
  s4.v0 ^^^ s4.v1 ^^^ s4.v2 ^^^ s4.v3

/-! ## The uuid47 core (uuid47.go)

A UUID is a list of 16 bytes.  A Key holds the two 64-bit SipHash key
halves.
-/

/-- Key of the transform: two 64-bit halves, as in type Key of uuid47.go. -/
structure Key where
  K0 : ℕ
  K1 : ℕ

/-- A well-formed UUID value: 16 bytes, each below 256. -/
def validUUID (u : List ℕ) : Prop := u.length = 16 ∧ ∀ b ∈ u, b < 256

instance (u : List ℕ) : Decidable (validUUID u) := by
  unfold validUUID; infer_instance

/-- Embeds rd48be of uuid47.go: read a 48-bit big-endian value from the
first 6 bytes. -/
def rd48be (src : List ℕ) : ℕ :=
  (src.getD 0 0) <<< 40 ||| (src.getD 1 0) <<< 32 ||| (src.getD 2 0) <<< 24 |||
    (src.getD 3 0) <<< 16 ||| (src.getD 4 0) <<< 8 ||| src.getD 5 0

/-- Embeds wr48be of uuid47.go: write a 48-bit value as 6 big-endian bytes.
The byte conversions of the Go source truncate modulo 256. -/
def wr48be (v48 : ℕ) : List ℕ :=
  [(v48 >>> 40) % 256, (v48 >>> 32) % 256, (v48 >>> 24) % 256,
   (v48 >>> 16) % 256, (v48 >>> 8) % 256, v48 % 256]

/-- Embeds buildSipInputFromV7 of uuid47.go: the 10-byte mask input
[low nibble of byte 6, byte 7, byte 8 without variant bits, bytes 9-15]. -/
def buildSipInputFromV7 (u : List ℕ) : List ℕ :=
  [(u.getD 6 0) &&& 0x0F, u.getD 7 0, (u.getD 8 0) &&& 0x3F] ++ u.drop 9

/-- Embeds setVersion of uuid47.go: set the high nibble of byte 6 to the
low 4 bits of ver. -/
def setVersion (u : List ℕ) (ver : ℕ) : List ℕ :=
  u.set 6 (((u.getD 6 0) &&& 0x0F) ||| ((ver &&& 0x0F) <<< 4))

/-- Embeds setVariantRFC4122 of uuid47.go: set the top two bits of byte 8
to 10. -/
def setVariantRFC4122 (u : List ℕ) : List ℕ :=
  u.set 8 (((u.getD 8 0) &&& 0x3F) ||| 0x80)

/-- Embeds Encode of uuid47.go: mask the timestamp with the low 48 bits of
the keyed SipHash of the payload bits and stamp version 4 and the RFC 4122
variant. -/
def Encode (uuid : List ℕ) (key : Key) : List ℕ :=
  let sipMsg := buildSipInputFromV7 uuid
  let mask48 := siphash key.K0 key.K1 sipMsg &&& 0x0000FFFFFFFFFFFF
  let ts48 := rd48be (uuid.take 6)
  let encTS := ts48 ^^^ mask48
  setVariantRFC4122 (setVersion (wr48be encTS ++ uuid.drop 6) 4)

/-- Embeds Decode of uuid47.go: recompute the same mask from the unchanged
payload bits, unmask the timestamp and stamp version 7 and the RFC 4122
variant. -/
def Decode (uuid : List ℕ) (key : Key) : List ℕ :=
  let sipMsg := buildSipInputFromV7 uuid
  let mask48 := siphash key.K0 key.K1 sipMsg &&& 0x0000FFFFFFFFFFFF
  let encTS := rd48be (uuid.take 6)
  let ts48 := encTS ^^^ mask48
  setVariantRFC4122 (setVersion (wr48be ts48 ++ uuid.drop 6) 7)

/-! ## The text codec (Parse and the String method of uuid47.go)

Strings are modelled as lists of byte values.  Parse has three possible
outcomes in the Go source: a parsed UUID, the ErrInvalidUUID error, or a
runtime panic from an out-of-bounds index (s[i+1] with i+1 = 36, or a
write u[j] with j at least 16). -/

/-- Outcome of parsing: a UUID, the format error, or an out-of-bounds
runtime panic. -/
inductive ParseOutcome where
  | ok (u : List ℕ) : ParseOutcome
  | invalid : ParseOutcome
  | panicOOB : ParseOutcome
deriving DecidableEq

/-- Embeds hexNibble of uuid47.go: ASCII hex character to its 4-bit value. -/
def hexNibble (c : ℕ) : Option ℕ :=
  if 48 ≤ c ∧ c ≤ 57 then some (c - 48)
  else if 97 ≤ c ∧ c ≤ 102 then some (c - 97 + 10)
  else if 65 ≤ c ∧ c ≤ 70 then some (c - 65 + 10)
  else none

/-- Embeds the decoding loop of Parse: consume the characters left to
right, skipping hyphens, turning each pair of hex digits into one byte.
Reading the second digit of a pair that starts at the last character, or
writing a seventeenth byte, is an out-of-bounds panic in the Go source. -/
def parseHexLoop : List ℕ → List ℕ → ParseOutcome
  | [], acc => .ok acc
  | c :: rest, acc =>
    if c = 45 then parseHexLoop rest acc
    else
      match hexNibble c with
      | none => .invalid
      | some hi =>
        match rest with
        | [] => .panicOOB
        | c2 :: rest2 =>
          match hexNibble c2 with
          | none => .invalid
          | some lo =>
            if acc.length < 16 then parseHexLoop rest2 (acc ++ [(hi <<< 4) ||| lo])
            else .panicOOB

/-- Embeds Parse of uuid47.go: length check, hyphen-position check, then
the decoding loop over a zero-initialised 16-byte array. -/
def Parse (s : List ℕ) : ParseOutcome :=
  if s.length ≠ 36 then .invalid
  else if s.getD 8 0 ≠ 45 ∨ s.getD 13 0 ≠ 45 ∨ s.getD 18 0 ≠ 45 ∨ s.getD 23 0 ≠ 45 then .invalid
  else
    match parseHexLoop s [] with
    | .ok acc => .ok (acc ++ List.replicate (16 - acc.length) 0)
    | r => r

/-- The lowercase hex digit table of the String method of uuid47.go. -/
def hexdigits : List ℕ :=
  [48, 49, 50, 51, 52, 53, 54, 55, 56, 57, 97, 98, 99, 100, 101, 102]

/-- Formatting loop of the String method: i counts bytes; a hyphen is
emitted before bytes 4, 6, 8 and 10. -/
def stringLoop : ℕ → List ℕ → List ℕ
  | _, [] => []
  | i, b :: rest =>
    (if i = 4 ∨ i = 6 ∨ i = 8 ∨ i = 10 then [45] else []) ++
      hexdigits.getD ((b >>> 4) &&& 0xF) 0 :: hexdigits.getD (b &&& 0xF) 0 ::
        stringLoop (i + 1) rest

/-- Embeds the String method of uuid47.go: canonical lowercase hyphenated
form of a UUID, as a list of character codes. -/
def UUIDString (u : List ℕ) : List ℕ := stringLoop 0 u

/-- Value of a hex digit character; 0 on non-digits. -/
def hexVal (c : ℕ) : ℕ := (hexNibble c).getD 0

/-- A lowercase hex digit character code: 0-9 or a-f. -/
def isLowerHexDigit (c : ℕ) : Prop := (48 ≤ c ∧ c ≤ 57) ∨ (97 ≤ c ∧ c ≤ 102)

instance (c : ℕ) : Decidable (isLowerHexDigit c) := by
  unfold isLowerHexDigit; infer_instance

/-- A string in canonical lowercase hyphenated UUID form: 36 characters,
hyphens exactly at positions 8, 13, 18 and 23, lowercase hex digits
everywhere else. -/
def isCanonical (s : List ℕ) : Prop :=
  s.length = 36 ∧ ∀ i < 36,
    if i = 8 ∨ i = 13 ∨ i = 18 ∨ i = 23 then s.getD i 0 = 45
    else isLowerHexDigit (s.getD i 0)

instance (s : List ℕ) : Decidable (isCanonical s) := by
  unfold isCanonical; infer_instance

/-- Character codes of a string literal. -/
def asciiOf (s : String) : List ℕ := s.toList.map Char.toNat

/-! ## Concrete values used by the spec's test vectors -/

/-- The fixed test key k0 = 0x0123456789abcdef, k1 = 0xfedcba9876543210. -/
def testKey : Key := ⟨0x0123456789abcdef, 0xfedcba9876543210⟩

/-- Bytes of 018f2d9f-9a2a-7def-8c3f-7b1a2c4d5e6f. -/
def uuidA : List ℕ :=
  [0x01, 0x8f, 0x2d, 0x9f, 0x9a, 0x2a, 0x7d, 0xef, 0x8c, 0x3f, 0x7b, 0x1a, 0x2c, 0x4d, 0x5e, 0x6f]

/-- Bytes of 2463c780-7fca-4def-8c3f-7b1a2c4d5e6f. -/
def facadeA : List ℕ :=
  [0x24, 0x63, 0xc7, 0x80, 0x7f, 0xca, 0x4d, 0xef, 0x8c, 0x3f, 0x7b, 0x1a, 0x2c, 0x4d, 0x5e, 0x6f]

/-- Bytes of 00000000-0000-7000-8000-000000000000. -/
def uuidZ : List ℕ :=
  [0x00, 0x00, 0x00, 0x00, 0x00, 0x00, 0x70, 0x00, 0x80, 0x00, 0x00, 0x00, 0x00, 0x00, 0x00, 0x00]

/-- Bytes of 22d97126-9609-4000-8000-000000000000. -/
def facadeZ : List ℕ :=
  [0x22, 0xd9, 0x71, 0x26, 0x96, 0x09, 0x40, 0x00, 0x80, 0x00, 0x00, 0x00, 0x00, 0x00, 0x00, 0x00]

/-- The all-zero UUID. -/
def uuid0 : List ℕ := [0, 0, 0, 0, 0, 0, 0, 0, 0, 0, 0, 0, 0, 0, 0, 0]

/-! ## Sanity checks of the SipHash embedding against published vectors -/

/-- Published SipHash-2-4 vector: empty message. -/
theorem siphash_vector_len0 :
    siphash 0x0706050403020100 0x0f0e0d0c0b0a0908 [] = 0x726fdb47dd0e0e31 := by decide

/-- Published SipHash-2-4 vector: 8-byte message 00..07. -/
theorem siphash_vector_len8 :
    siphash 0x0706050403020100 0x0f0e0d0c0b0a0908 [0, 1, 2, 3, 4, 5, 6, 7] =
      0x93f5f5799a932462 := by decide

/-- Published SipHash-2-4 vector: 12-byte message 00..0b. -/
theorem siphash_vector_len12 :
    siphash 0x0706050403020100 0x0f0e0d0c0b0a0908 [0, 1, 2, 3, 4, 5, 6, 7, 8, 9, 10, 11] =
      0x751e8fbc860ee5fb := by decide

/-! ## Arithmetic characterisation of the 48-bit timestamp accessors -/

/-- Disjoint or is addition: appending low bits below a shifted value. -/
theorem or_add_pow (a b s : ℕ) (hb : b < 2 ^ s) : a * 2 ^ s ||| b = a * 2 ^ s + b := by
  rw [Nat.mul_comm a (2 ^ s)]
  exact (Nat.mul_add_lt_is_or hb a).symm

/-- Big-endian 48-bit read as plain arithmetic on the six bytes. -/
theorem rd48be_eq (b0 b1 b2 b3 b4 b5 : ℕ) (h0 : b0 < 256) (h1 : b1 < 256) (h2 : b2 < 256)
    (h3 : b3 < 256) (h4 : b4 < 256) (h5 : b5 < 256) :
    rd48be [b0, b1, b2, b3, b4, b5] =
      b0 * 1099511627776 + b1 * 4294967296 + b2 * 16777216 + b3 * 65536 + b4 * 256 + b5 := by
  unfold rd48be
  simp only [List.getD_cons_zero, List.getD_cons_succ, Nat.shiftLeft_eq, Nat.or_assoc]
  have e5 : b4 * 2 ^ 8 ||| b5 = b4 * 2 ^ 8 + b5 :=
    or_add_pow _ _ _ (by norm_num; omega)
  have e4 : b3 * 2 ^ 16 ||| (b4 * 2 ^ 8 + b5) = b3 * 2 ^ 16 + (b4 * 2 ^ 8 + b5) :=
    or_add_pow _ _ _ (by norm_num; omega)
  have e3 : b2 * 2 ^ 24 ||| (b3 * 2 ^ 16 + (b4 * 2 ^ 8 + b5)) =
      b2 * 2 ^ 24 + (b3 * 2 ^ 16 + (b4 * 2 ^ 8 + b5)) :=
    or_add_pow _ _ _ (by norm_num; omega)
  have e2 : b1 * 2 ^ 32 ||| (b2 * 2 ^ 24 + (b3 * 2 ^ 16 + (b4 * 2 ^ 8 + b5))) =
      b1 * 2 ^ 32 + (b2 * 2 ^ 24 + (b3 * 2 ^ 16 + (b4 * 2 ^ 8 + b5))) :=
    or_add_pow _ _ _ (by norm_num; omega)
  have e1 : b0 * 2 ^ 40 ||| (b1 * 2 ^ 32 + (b2 * 2 ^ 24 + (b3 * 2 ^ 16 + (b4 * 2 ^ 8 + b5)))) =
      b0 * 2 ^ 40 + (b1 * 2 ^ 32 + (b2 * 2 ^ 24 + (b3 * 2 ^ 16 + (b4 * 2 ^ 8 + b5)))) :=
    or_add_pow _ _ _ (by norm_num; omega)
  rw [e5, e4, e3, e2, e1]
  norm_num
  omega

/-- Big-endian 48-bit write as plain arithmetic. -/
theorem wr48be_eq (v : ℕ) :
    wr48be v = [v / 1099511627776 % 256, v / 4294967296 % 256, v / 16777216 % 256,
      v / 65536 % 256, v / 256 % 256, v % 256] := by
  unfold wr48be
  norm_num [Nat.shiftRight_eq_div_pow]

/-- Reading back the six bytes written for v recovers v modulo 2 ^ 48. -/
theorem rd48be_wr48be (v : ℕ) : rd48be (wr48be v) = v % 281474976710656 := by
  rw [wr48be_eq,
    rd48be_eq _ _ _ _ _ _ (Nat.mod_lt _ (by norm_num)) (Nat.mod_lt _ (by norm_num))
      (Nat.mod_lt _ (by norm_num)) (Nat.mod_lt _ (by norm_num)) (Nat.mod_lt _ (by norm_num))
      (Nat.mod_lt _ (by norm_num))]
  omega

/-- Writing back the 48-bit value read from six bytes reproduces them. -/
theorem wr48be_rd48be (b0 b1 b2 b3 b4 b5 : ℕ) (h0 : b0 < 256) (h1 : b1 < 256) (h2 : b2 < 256)
    (h3 : b3 < 256) (h4 : b4 < 256) (h5 : b5 < 256) :
    wr48be (rd48be [b0, b1, b2, b3, b4, b5]) = [b0, b1, b2, b3, b4, b5] := by
  rw [rd48be_eq _ _ _ _ _ _ h0 h1 h2 h3 h4 h5, wr48be_eq]
  simp only [List.cons.injEq, and_true]
  omega

/-- The 48-bit read of six bytes is below 2 ^ 48. -/
theorem rd48be_lt (b0 b1 b2 b3 b4 b5 : ℕ) (h0 : b0 < 256) (h1 : b1 < 256) (h2 : b2 < 256)
    (h3 : b3 < 256) (h4 : b4 < 256) (h5 : b5 < 256) :
    rd48be [b0, b1, b2, b3, b4, b5] < 281474976710656 := by
  rw [rd48be_eq _ _ _ _ _ _ h0 h1 h2 h3 h4 h5]
  omega

/-! ## Nibble and variant bit lemmas -/

/-- Bits outside the mask do not disturb the masked part. -/
theorem and_or_cancel (x m c : ℕ) (hc : c &&& m = 0) : ((x &&& m) ||| c) &&& m = x &&& m := by
  rw [Nat.and_distrib_right, Nat.and_assoc, Nat.and_self, hc, Nat.or_zero]

/-- A value shifted left by a nibble has empty low nibble. -/
theorem shl4_and15 (w : ℕ) : (w <<< 4) &&& 15 = 0 := by
  rw [Nat.shiftLeft_eq, show (15 : ℕ) = 2 ^ 4 - 1 from rfl,
    Nat.and_pow_two_sub_one_eq_mod, Nat.mul_mod_left]

/-- A list of length 16 is a 16-element literal list. -/
theorem eq_sixteen (u : List ℕ) (h : u.length = 16) :
    ∃ a0 a1 a2 a3 a4 a5 a6 a7 a8 a9 a10 a11 a12 a13 a14 a15,
      u = [a0, a1, a2, a3, a4, a5, a6, a7, a8, a9, a10, a11, a12, a13, a14, a15] := by
  rcases u with _ | ⟨a0, u⟩
  · simp at h
  rcases u with _ | ⟨a1, u⟩
  · simp at h
  rcases u with _ | ⟨a2, u⟩
  · simp at h
  rcases u with _ | ⟨a3, u⟩
  · simp at h
  rcases u with _ | ⟨a4, u⟩
  · simp at h
  rcases u with _ | ⟨a5, u⟩
  · simp at h
  rcases u with _ | ⟨a6, u⟩
  · simp at h
  rcases u with _ | ⟨a7, u⟩
  · simp at h
  rcases u with _ | ⟨a8, u⟩
  · simp at h
  rcases u with _ | ⟨a9, u⟩
  · simp at h
  rcases u with _ | ⟨a10, u⟩
  · simp at h
  rcases u with _ | ⟨a11, u⟩
  · simp at h
  rcases u with _ | ⟨a12, u⟩
  · simp at h
  rcases u with _ | ⟨a13, u⟩
  · simp at h
  rcases u with _ | ⟨a14, u⟩
  · simp at h
  rcases u with _ | ⟨a15, u⟩
  · simp at h
  simp only [List.length_cons] at h
  have hnil : u.length = 0 := by omega
  rw [List.length_eq_zero] at hnil
  subst hnil
  exact ⟨a0, a1, a2, a3, a4, a5, a6, a7, a8, a9, a10, a11, a12, a13, a14, a15, rfl⟩

/-- Restoring high nibble 7 on a byte that had high nibble 7. -/
theorem byte_restore7 (b : ℕ) (hb : b < 256) (h : b >>> 4 = 7) : (b &&& 15) ||| 112 = b := by
  revert h
  revert hb
  exact fun hb => (by decide : ∀ b < 256, b >>> 4 = 7 → (b &&& 15) ||| 112 = b) b hb

/-- Restoring high nibble 4 on a byte that had high nibble 4. -/
theorem byte_restore4 (b : ℕ) (hb : b < 256) (h : b >>> 4 = 4) : (b &&& 15) ||| 64 = b := by
  revert h
  revert hb
  exact fun hb => (by decide : ∀ b < 256, b >>> 4 = 4 → (b &&& 15) ||| 64 = b) b hb

/-- Restoring RFC variant bits on a byte that had variant bits 10. -/
theorem byte_restoreVar (b : ℕ) (hb : b < 256) (h : b &&& 192 = 128) :
    (b &&& 63) ||| 128 = b := by
  revert h
  revert hb
  exact fun hb => (by decide : ∀ b < 256, b &&& 192 = 128 → (b &&& 63) ||| 128 = b) b hb

/-- The stamped version nibble reads back as the version. -/
theorem byte_ver_read (b v : ℕ) (hb : b < 256) (hv : v < 16) :
    ((b &&& 15) ||| (v <<< 4)) >>> 4 = v :=
  (by decide : ∀ b < 256, ∀ v < 16, ((b &&& 15) ||| (v <<< 4)) >>> 4 = v) b hb v hv

/-- The stamped variant bits read back as 10. -/
theorem byte_var_read (x : ℕ) (hx : x < 64) : (x ||| 128) &&& 192 = 128 :=
  (by decide : ∀ x < 64, (x ||| 128) &&& 192 = 128) x hx

/-- Masking to the low six bits leaves a value below 64. -/
theorem and63_lt (x : ℕ) : x &&& 63 < 64 :=
  Nat.lt_succ_of_le Nat.and_le_right

/-- Masking to the low nibble leaves a value below 16. -/
theorem and15_lt (x : ℕ) : x &&& 15 < 16 :=
  Nat.lt_succ_of_le Nat.and_le_right

/-- Stamping version 4 on top of a cleared high nibble leaves the low nibble. -/
theorem and15_or64 (x : ℕ) : ((x &&& 15) ||| 64) &&& 15 = x &&& 15 :=
  and_or_cancel x 15 64 (by decide)

/-- Stamping version 7 on top of a cleared high nibble leaves the low nibble. -/
theorem and15_or112 (x : ℕ) : ((x &&& 15) ||| 112) &&& 15 = x &&& 15 :=
  and_or_cancel x 15 112 (by decide)

/-- Stamping the RFC variant leaves the low six bits. -/
theorem and63_or128 (x : ℕ) : ((x &&& 63) ||| 128) &&& 63 = x &&& 63 :=
  and_or_cancel x 63 128 (by decide)

/-- The six bytes written for a 48-bit value, with their bounds and the
fact that reading them back recovers the value. -/
theorem wr48be_parts (v : ℕ) (hv : v < 281474976710656) :
    ∃ e0 e1 e2 e3 e4 e5, wr48be v = [e0, e1, e2, e3, e4, e5] ∧
      e0 < 256 ∧ e1 < 256 ∧ e2 < 256 ∧ e3 < 256 ∧ e4 < 256 ∧ e5 < 256 ∧
      rd48be [e0, e1, e2, e3, e4, e5] = v := by
  refine ⟨_, _, _, _, _, _, wr48be_eq v, Nat.mod_lt _ (by norm_num), Nat.mod_lt _ (by norm_num),
    Nat.mod_lt _ (by norm_num), Nat.mod_lt _ (by norm_num), Nat.mod_lt _ (by norm_num),
    Nat.mod_lt _ (by norm_num), ?_⟩
  rw [rd48be_eq _ _ _ _ _ _ (Nat.mod_lt _ (by norm_num)) (Nat.mod_lt _ (by norm_num))
    (Nat.mod_lt _ (by norm_num)) (Nat.mod_lt _ (by norm_num)) (Nat.mod_lt _ (by norm_num))
    (Nat.mod_lt _ (by norm_num))]
  omega

/-- Claim C1 (amended): Decode inverts Encode under the same key for every UUID
that already carries version nibble 7 and RFC 4122 variant bits 10 — the
shape of every UUIDv7.  The claim's universal form over all 2^128 inputs
fails, because Decode always stamps version 7 and variant 10
(counterexample below); this restriction is the most the code supports. -/
theorem c1_decode_encode_roundtrip (u : List ℕ) (k : Key) (hu : validUUID u)
    (h6 : u.getD 6 0 >>> 4 = 7) (h8 : u.getD 8 0 &&& 192 = 128) :
    Decode (Encode u k) k = u := by
  obtain ⟨hlen, hmem⟩ := hu
  obtain ⟨b0, b1, b2, b3, b4, b5, b6, b7, b8, b9, b10, b11, b12, b13, b14, b15, rfl⟩ :=
    eq_sixteen u hlen
  simp only [List.mem_cons, List.not_mem_nil, or_false, forall_eq_or_imp, forall_eq] at hmem
  obtain ⟨hb0, hb1, hb2, hb3, hb4, hb5, hb6, hb7, hb8, hb9, hb10, hb11, hb12, hb13, hb14,
    hb15⟩ := hmem
  simp only [List.getD_cons_succ, List.getD_cons_zero] at h6 h8
  have hts : rd48be [b0, b1, b2, b3, b4, b5] < 281474976710656 :=
    rd48be_lt _ _ _ _ _ _ hb0 hb1 hb2 hb3 hb4 hb5
  have hM : siphash k.K0 k.K1 [b6 &&& 15, b7, b8 &&& 63, b9, b10, b11, b12, b13, b14, b15] &&&
      281474976710655 < 281474976710656 := by
    have := @Nat.and_le_right
      (siphash k.K0 k.K1 [b6 &&& 15, b7, b8 &&& 63, b9, b10, b11, b12, b13, b14, b15])
      281474976710655
    omega
  have hpow : (2 : ℕ) ^ 48 = 281474976710656 := by norm_num
  have hE : rd48be [b0, b1, b2, b3, b4, b5] ^^^
      (siphash k.K0 k.K1 [b6 &&& 15, b7, b8 &&& 63, b9, b10, b11, b12, b13, b14, b15] &&&
        281474976710655) < 281474976710656 :=
    hpow ▸ Nat.xor_lt_two_pow (hpow.symm ▸ hts) (hpow.symm ▸ hM)
  obtain ⟨e0, e1, e2, e3, e4, e5, hwE, he0, he1, he2, he3, he4, he5, hrd⟩ := wr48be_parts _ hE
  have hencode : Encode [b0, b1, b2, b3, b4, b5, b6, b7, b8, b9, b10, b11, b12, b13, b14, b15] k =
      [e0, e1, e2, e3, e4, e5, (b6 &&& 15) ||| 64, b7, (b8 &&& 63) ||| 128,
        b9, b10, b11, b12, b13, b14, b15] := by
    simp only [Encode, buildSipInputFromV7, List.getD_cons_zero, List.getD_cons_succ,
      List.take_succ_cons, List.take_zero, List.drop_succ_cons, List.drop_zero,
      List.cons_append, List.nil_append]
    rw [hwE]
    simp only [setVersion, setVariantRFC4122, List.getD_cons_zero, List.getD_cons_succ,
      List.cons_append, List.nil_append, List.set_cons_zero, List.set_cons_succ]
    simp only [List.cons.injEq, (by decide : (4 &&& 15) <<< 4 = 64), and_self,
      and_true, true_and]
  rw [hencode]
  simp only [Decode, buildSipInputFromV7, List.getD_cons_zero, List.getD_cons_succ,
    List.take_succ_cons, List.take_zero, List.drop_succ_cons, List.drop_zero,
    List.cons_append, List.nil_append, and15_or64, and63_or128]
  rw [hrd, Nat.xor_assoc, Nat.xor_self, Nat.xor_zero,
    wr48be_rd48be _ _ _ _ _ _ hb0 hb1 hb2 hb3 hb4 hb5]
  simp only [setVersion, setVariantRFC4122, List.getD_cons_zero, List.getD_cons_succ,
    List.cons_append, List.nil_append, List.set_cons_zero, List.set_cons_succ,
    and15_or64, and63_or128, List.cons.injEq, and_self, and_true, true_and]
  refine ⟨?_, byte_restoreVar b8 hb8 h8⟩
  rw [(by decide : (7 &&& 15) <<< 4 = 112)]
  exact byte_restore7 b6 hb6 h6

/-- Claim C1 (counterexample): the claimed identity for all 2^128 inputs fails at
the all-zero UUID, whose version nibble Decode rewrites to 7 and whose
variant bits it rewrites to 10. -/
theorem c1_cex : Decode (Encode uuid0 ⟨0, 0⟩) ⟨0, 0⟩ ≠ uuid0 := by decide

/-- Claim C1 (witness): the amended round trip at the concrete v7 UUID
018f2d9f-9a2a-7def-8c3f-7b1a2c4d5e6f under the fixed test key. -/
theorem c1_witness :
    validUUID uuidA ∧ uuidA.getD 6 0 >>> 4 = 7 ∧ uuidA.getD 8 0 &&& 192 = 128 ∧
      Decode (Encode uuidA testKey) testKey = uuidA :=
  ⟨by decide, by decide, by decide,
    c1_decode_encode_roundtrip uuidA testKey (by decide) (by decide) (by decide)⟩

/-- Claim C10: the reverse round trip holds on well-formed facades: if byte 6 of
u has high nibble 4 and byte 8 has top bits 10, then Encode inverts Decode
under the same key. -/
theorem c10_encode_decode_facade (u : List ℕ) (k : Key) (hu : validUUID u)
    (h6 : u.getD 6 0 >>> 4 = 4) (h8 : u.getD 8 0 &&& 192 = 128) :
    Encode (Decode u k) k = u := by
  obtain ⟨hlen, hmem⟩ := hu
  obtain ⟨b0, b1, b2, b3, b4, b5, b6, b7, b8, b9, b10, b11, b12, b13, b14, b15, rfl⟩ :=
    eq_sixteen u hlen
  simp only [List.mem_cons, List.not_mem_nil, or_false, forall_eq_or_imp, forall_eq] at hmem
  obtain ⟨hb0, hb1, hb2, hb3, hb4, hb5, hb6, hb7, hb8, hb9, hb10, hb11, hb12, hb13, hb14,
    hb15⟩ := hmem
  simp only [List.getD_cons_succ, List.getD_cons_zero] at h6 h8
  have hts : rd48be [b0, b1, b2, b3, b4, b5] < 281474976710656 :=
    rd48be_lt _ _ _ _ _ _ hb0 hb1 hb2 hb3 hb4 hb5
  have hM : siphash k.K0 k.K1 [b6 &&& 15, b7, b8 &&& 63, b9, b10, b11, b12, b13, b14, b15] &&&
      281474976710655 < 281474976710656 := by
    have := @Nat.and_le_right
      (siphash k.K0 k.K1 [b6 &&& 15, b7, b8 &&& 63, b9, b10, b11, b12, b13, b14, b15])
      281474976710655
    omega
  have hpow : (2 : ℕ) ^ 48 = 281474976710656 := by norm_num
  have hE : rd48be [b0, b1, b2, b3, b4, b5] ^^^
      (siphash k.K0 k.K1 [b6 &&& 15, b7, b8 &&& 63, b9, b10, b11, b12, b13, b14, b15] &&&
        281474976710655) < 281474976710656 :=
    hpow ▸ Nat.xor_lt_two_pow (hpow.symm ▸ hts) (hpow.symm ▸ hM)
  obtain ⟨e0, e1, e2, e3, e4, e5, hwE, he0, he1, he2, he3, he4, he5, hrd⟩ := wr48be_parts _ hE
  have hdecode : Decode [b0, b1, b2, b3, b4, b5, b6, b7, b8, b9, b10, b11, b12, b13, b14, b15] k =
      [e0, e1, e2, e3, e4, e5, (b6 &&& 15) ||| 112, b7, (b8 &&& 63) ||| 128,
        b9, b10, b11, b12, b13, b14, b15] := by
    simp only [Decode, buildSipInputFromV7, List.getD_cons_zero, List.getD_cons_succ,
      List.take_succ_cons, List.take_zero, List.drop_succ_cons, List.drop_zero,
      List.cons_append, List.nil_append]
    rw [hwE]
    simp only [setVersion, setVariantRFC4122, List.getD_cons_zero, List.getD_cons_succ,
      List.cons_append, List.nil_append, List.set_cons_zero, List.set_cons_succ]
    simp only [List.cons.injEq, (by decide : (7 &&& 15) <<< 4 = 112), and_self,
      and_true, true_and]
  rw [hdecode]
  simp only [Encode, buildSipInputFromV7, List.getD_cons_zero, List.getD_cons_succ,
    List.take_succ_cons, List.take_zero, List.drop_succ_cons, List.drop_zero,
    List.cons_append, List.nil_append, and15_or112, and63_or128]
  rw [hrd, Nat.xor_assoc, Nat.xor_self, Nat.xor_zero,
    wr48be_rd48be _ _ _ _ _ _ hb0 hb1 hb2 hb3 hb4 hb5]
  simp only [setVersion, setVariantRFC4122, List.getD_cons_zero, List.getD_cons_succ,
    List.cons_append, List.nil_append, List.set_cons_zero, List.set_cons_succ,
    and15_or112, and63_or128, List.cons.injEq, and_self, and_true, true_and]
  refine ⟨?_, byte_restoreVar b8 hb8 h8⟩
  rw [(by decide : (4 &&& 15) <<< 4 = 64)]
  exact byte_restore4 b6 hb6 h6

/-- Claim C10 (witness): the facade round trip at the concrete v4 facade
2463c780-7fca-4def-8c3f-7b1a2c4d5e6f under the fixed test key. -/
theorem c10_witness :
    validUUID facadeA ∧ facadeA.getD 6 0 >>> 4 = 4 ∧ facadeA.getD 8 0 &&& 192 = 128 ∧
      Encode (Decode facadeA testKey) testKey = facadeA :=
  ⟨by decide, by decide, by decide,
    c10_encode_decode_facade facadeA testKey (by decide) (by decide) (by decide)⟩

/-- Encode on sixteen explicit bytes, given a name for the six written
timestamp bytes. -/
theorem Encode_eq_of_wr (k : Key)
    (b0 b1 b2 b3 b4 b5 b6 b7 b8 b9 b10 b11 b12 b13 b14 b15 e0 e1 e2 e3 e4 e5 : ℕ)
    (hwE : wr48be (rd48be [b0, b1, b2, b3, b4, b5] ^^^
      (siphash k.K0 k.K1 [b6 &&& 15, b7, b8 &&& 63, b9, b10, b11, b12, b13, b14, b15] &&&
        281474976710655)) = [e0, e1, e2, e3, e4, e5]) :
    Encode [b0, b1, b2, b3, b4, b5, b6, b7, b8, b9, b10, b11, b12, b13, b14, b15] k =
      [e0, e1, e2, e3, e4, e5, (b6 &&& 15) ||| 64, b7, (b8 &&& 63) ||| 128,
        b9, b10, b11, b12, b13, b14, b15] := by
  simp only [Encode, buildSipInputFromV7, List.getD_cons_zero, List.getD_cons_succ,
    List.take_succ_cons, List.take_zero, List.drop_succ_cons, List.drop_zero,
    List.cons_append, List.nil_append]
  rw [hwE]
  simp only [setVersion, setVariantRFC4122, List.getD_cons_zero, List.getD_cons_succ,
    List.cons_append, List.nil_append, List.set_cons_zero, List.set_cons_succ]
  simp only [List.cons.injEq, (by decide : (4 &&& 15) <<< 4 = 64), and_self, and_true, true_and]

/-- Decode on sixteen explicit bytes, given a name for the six written
timestamp bytes.  The unmasking xor is the same expression as in Encode. -/
theorem Decode_eq_of_wr (k : Key)
    (b0 b1 b2 b3 b4 b5 b6 b7 b8 b9 b10 b11 b12 b13 b14 b15 e0 e1 e2 e3 e4 e5 : ℕ)
    (hwE : wr48be (rd48be [b0, b1, b2, b3, b4, b5] ^^^
      (siphash k.K0 k.K1 [b6 &&& 15, b7, b8 &&& 63, b9, b10, b11, b12, b13, b14, b15] &&&
        281474976710655)) = [e0, e1, e2, e3, e4, e5]) :
    Decode [b0, b1, b2, b3, b4, b5, b6, b7, b8, b9, b10, b11, b12, b13, b14, b15] k =
      [e0, e1, e2, e3, e4, e5, (b6 &&& 15) ||| 112, b7, (b8 &&& 63) ||| 128,
        b9, b10, b11, b12, b13, b14, b15] := by
  simp only [Decode, buildSipInputFromV7, List.getD_cons_zero, List.getD_cons_succ,
    List.take_succ_cons, List.take_zero, List.drop_succ_cons, List.drop_zero,
    List.cons_append, List.nil_append]
  rw [hwE]
  simp only [setVersion, setVariantRFC4122, List.getD_cons_zero, List.getD_cons_succ,
    List.cons_append, List.nil_append, List.set_cons_zero, List.set_cons_succ]
  simp only [List.cons.injEq, (by decide : (7 &&& 15) <<< 4 = 112), and_self, and_true, true_and]

/-- Any value with low nibble cleared and something stamped above keeps a
nibble read of 4 after stamping 64. -/
theorem or64_shift (x : ℕ) (hx : x < 16) : (x ||| 64) >>> 4 = 4 :=
  (by decide : ∀ x < 16, (x ||| 64) >>> 4 = 4) x hx

/-- Stamping 112 above a nibble yields a nibble read of 7. -/
theorem or112_shift (x : ℕ) (hx : x < 16) : (x ||| 112) >>> 4 = 7 :=
  (by decide : ∀ x < 16, (x ||| 112) >>> 4 = 7) x hx

/-- Claim C2: Encode and Decode preserve all 74 payload bits — the low nibble of
byte 6, byte 7, the low six bits of byte 8, and bytes 9 through 15; hence
only the six timestamp bytes, the high nibble of byte 6 and the top two
bits of byte 8 can differ from the input. -/
theorem c2_payload_preservation (u : List ℕ) (k : Key) (hu : validUUID u) :
    ((Encode u k).getD 6 0 &&& 15 = u.getD 6 0 &&& 15 ∧
      (Encode u k).getD 7 0 = u.getD 7 0 ∧
      (Encode u k).getD 8 0 &&& 63 = u.getD 8 0 &&& 63 ∧
      (Encode u k).drop 9 = u.drop 9) ∧
    ((Decode u k).getD 6 0 &&& 15 = u.getD 6 0 &&& 15 ∧
      (Decode u k).getD 7 0 = u.getD 7 0 ∧
      (Decode u k).getD 8 0 &&& 63 = u.getD 8 0 &&& 63 ∧
      (Decode u k).drop 9 = u.drop 9) := by
  obtain ⟨hlen, _⟩ := hu
  obtain ⟨b0, b1, b2, b3, b4, b5, b6, b7, b8, b9, b10, b11, b12, b13, b14, b15, rfl⟩ :=
    eq_sixteen u hlen
  obtain ⟨e0, e1, e2, e3, e4, e5, hwE⟩ :
      ∃ e0 e1 e2 e3 e4 e5, wr48be (rd48be [b0, b1, b2, b3, b4, b5] ^^^
        (siphash k.K0 k.K1 [b6 &&& 15, b7, b8 &&& 63, b9, b10, b11, b12, b13, b14, b15] &&&
          281474976710655)) = [e0, e1, e2, e3, e4, e5] :=
    ⟨_, _, _, _, _, _, wr48be_eq _⟩
  rw [Encode_eq_of_wr k b0 b1 b2 b3 b4 b5 b6 b7 b8 b9 b10 b11 b12 b13 b14 b15 e0 e1 e2 e3 e4 e5
      hwE,
    Decode_eq_of_wr k b0 b1 b2 b3 b4 b5 b6 b7 b8 b9 b10 b11 b12 b13 b14 b15 e0 e1 e2 e3 e4 e5
      hwE]
  simp only [List.getD_cons_zero, List.getD_cons_succ, List.drop_succ_cons, List.drop_zero,
    and15_or64, and15_or112, and63_or128, and_self, true_and]

/-- Claim C2 (witness): payload preservation at the concrete v7 UUID under the
fixed test key. -/
theorem c2_witness :
    validUUID uuidA ∧
      (Encode uuidA testKey).getD 7 0 = uuidA.getD 7 0 ∧
      (Decode uuidA testKey).drop 9 = uuidA.drop 9 := by
  refine ⟨by decide, ?_, ?_⟩
  · exact (c2_payload_preservation uuidA testKey (by decide)).1.2.1
  · exact (c2_payload_preservation uuidA testKey (by decide)).2.2.2.2

/-- Claim C3: Encode always stamps version nibble 4 and RFC 4122 variant bits
10; Decode always stamps version nibble 7 and variant bits 10, whatever
version and variant bits the input carried. -/
theorem c3_version_stamping (u : List ℕ) (k : Key) (hu : validUUID u) :
    (Encode u k).getD 6 0 >>> 4 = 4 ∧ (Encode u k).getD 8 0 &&& 192 = 128 ∧
    (Decode u k).getD 6 0 >>> 4 = 7 ∧ (Decode u k).getD 8 0 &&& 192 = 128 := by
  obtain ⟨hlen, _⟩ := hu
  obtain ⟨b0, b1, b2, b3, b4, b5, b6, b7, b8, b9, b10, b11, b12, b13, b14, b15, rfl⟩ :=
    eq_sixteen u hlen
  obtain ⟨e0, e1, e2, e3, e4, e5, hwE⟩ :
      ∃ e0 e1 e2 e3 e4 e5, wr48be (rd48be [b0, b1, b2, b3, b4, b5] ^^^
        (siphash k.K0 k.K1 [b6 &&& 15, b7, b8 &&& 63, b9, b10, b11, b12, b13, b14, b15] &&&
          281474976710655)) = [e0, e1, e2, e3, e4, e5] :=
    ⟨_, _, _, _, _, _, wr48be_eq _⟩
  rw [Encode_eq_of_wr k b0 b1 b2 b3 b4 b5 b6 b7 b8 b9 b10 b11 b12 b13 b14 b15 e0 e1 e2 e3 e4 e5
      hwE,
    Decode_eq_of_wr k b0 b1 b2 b3 b4 b5 b6 b7 b8 b9 b10 b11 b12 b13 b14 b15 e0 e1 e2 e3 e4 e5
      hwE]
  simp only [List.getD_cons_zero, List.getD_cons_succ]
  exact ⟨or64_shift _ (and15_lt b6), byte_var_read _ (and63_lt b8),
    or112_shift _ (and15_lt b6), byte_var_read _ (and63_lt b8)⟩

/-- Claim C3 (witness): version and variant stamping at the concrete v7 UUID
under the fixed test key. -/
theorem c3_witness :
    validUUID uuidA ∧ (Encode uuidA testKey).getD 6 0 >>> 4 = 4 ∧
      (Decode uuidA testKey).getD 6 0 >>> 4 = 7 := by
  refine ⟨by decide, ?_, ?_⟩
  · exact (c3_version_stamping uuidA testKey (by decide)).1
  · exact (c3_version_stamping uuidA testKey (by decide)).2.2.1

/-- Claim C4: the mask-input builder is insensitive to the version and variant
metadata bits: stamping any version, stamping the RFC variant, encoding,
or decoding leaves buildSipInputFromV7 unchanged. -/
theorem c4_sip_input_insensitive (u : List ℕ) (hu : validUUID u) (v : ℕ) (k : Key) :
    buildSipInputFromV7 (setVersion u v) = buildSipInputFromV7 u ∧
    buildSipInputFromV7 (setVariantRFC4122 u) = buildSipInputFromV7 u ∧
    buildSipInputFromV7 (Encode u k) = buildSipInputFromV7 u ∧
    buildSipInputFromV7 (Decode u k) = buildSipInputFromV7 u := by
  obtain ⟨hlen, _⟩ := hu
  obtain ⟨b0, b1, b2, b3, b4, b5, b6, b7, b8, b9, b10, b11, b12, b13, b14, b15, rfl⟩ :=
    eq_sixteen u hlen
  obtain ⟨e0, e1, e2, e3, e4, e5, hwE⟩ :
      ∃ e0 e1 e2 e3 e4 e5, wr48be (rd48be [b0, b1, b2, b3, b4, b5] ^^^
        (siphash k.K0 k.K1 [b6 &&& 15, b7, b8 &&& 63, b9, b10, b11, b12, b13, b14, b15] &&&
          281474976710655)) = [e0, e1, e2, e3, e4, e5] :=
    ⟨_, _, _, _, _, _, wr48be_eq _⟩
  rw [Encode_eq_of_wr k b0 b1 b2 b3 b4 b5 b6 b7 b8 b9 b10 b11 b12 b13 b14 b15 e0 e1 e2 e3 e4 e5
      hwE,
    Decode_eq_of_wr k b0 b1 b2 b3 b4 b5 b6 b7 b8 b9 b10 b11 b12 b13 b14 b15 e0 e1 e2 e3 e4 e5
      hwE]
  have hv : ((b6 &&& 15) ||| ((v &&& 15) <<< 4)) &&& 15 = b6 &&& 15 :=
    and_or_cancel b6 15 ((v &&& 15) <<< 4) (shl4_and15 (v &&& 15))
  simp only [setVersion, setVariantRFC4122, buildSipInputFromV7, List.getD_cons_zero,
    List.getD_cons_succ, List.set_cons_zero, List.set_cons_succ, List.drop_succ_cons,
    List.drop_zero, List.cons_append, List.nil_append, and15_or64, and15_or112, and63_or128, hv]
  refine ⟨?_, ?_, ?_, ?_⟩ <;> trivial

/-- Claim C4 (witness): mask-input insensitivity at the concrete v7 UUID, an
arbitrary version value 9, and the fixed test key. -/
theorem c4_witness :
    validUUID uuidA ∧
      buildSipInputFromV7 (setVersion uuidA 9) = buildSipInputFromV7 uuidA ∧
      buildSipInputFromV7 (Encode uuidA testKey) = buildSipInputFromV7 uuidA := by
  refine ⟨by decide, ?_, ?_⟩
  · exact (c4_sip_input_insensitive uuidA (by decide) 9 testKey).1
  · exact (c4_sip_input_insensitive uuidA (by decide) 9 testKey).2.2.1

/-- Claim C5 (counterexample): the spec's concrete vector for the mask-input
builder is wrong in its first byte.  Byte 6 of the parsed UUID is 0x7d, so
the first mask-input byte is 0x0d, not 0x0f as claimed. -/
theorem c5_cex :
    Parse (asciiOf ("018f2d9f-9a2a-7def-8c3f-7b1a2c4d5e6f")) = .ok uuidA ∧
      buildSipInputFromV7 uuidA ≠
        [0x0f, 0xef, 0x0c, 0x3f, 0x7b, 0x1a, 0x2c, 0x4d, 0x5e, 0x6f] := by decide

/-- Claim C5 (amended): the mask-input builder returns the 10-byte buffer with
byte 0 = id[6] and 0x0F, byte 1 = id[7], byte 2 = id[8] and 0x3F and bytes
3 to 9 equal to id[9..15]; on the UUID parsed from
018f2d9f-9a2a-7def-8c3f-7b1a2c4d5e6f it yields 0d ef 0c 3f 7b 1a 2c 4d 5e
6f (first byte 0d, where the spec claimed 0f). -/
theorem c5_amended :
    (∀ u : List ℕ, u.length = 16 →
      ((buildSipInputFromV7 u).length = 10 ∧
        (buildSipInputFromV7 u).getD 0 0 = u.getD 6 0 &&& 15 ∧
        (buildSipInputFromV7 u).getD 1 0 = u.getD 7 0 ∧
        (buildSipInputFromV7 u).getD 2 0 = u.getD 8 0 &&& 63 ∧
        ∀ j < 7, (buildSipInputFromV7 u).getD (3 + j) 0 = u.getD (9 + j) 0)) ∧
    (Parse (asciiOf ("018f2d9f-9a2a-7def-8c3f-7b1a2c4d5e6f")) = .ok uuidA ∧
      buildSipInputFromV7 uuidA =
        [0x0d, 0xef, 0x0c, 0x3f, 0x7b, 0x1a, 0x2c, 0x4d, 0x5e, 0x6f]) := by
  constructor
  · intro u h
    obtain ⟨b0, b1, b2, b3, b4, b5, b6, b7, b8, b9, b10, b11, b12, b13, b14, b15, rfl⟩ :=
      eq_sixteen u h
    simp only [buildSipInputFromV7, List.getD_cons_zero, List.getD_cons_succ,
      List.drop_succ_cons, List.drop_zero, List.cons_append, List.nil_append, List.length_cons,
      List.length_nil]
    refine ⟨by trivial, by trivial, by trivial, by trivial, ?_⟩
    intro j hj
    interval_cases j <;> rfl
  · exact ⟨by decide, by decide⟩

/-- Claim C5 (witness): the structural description instantiated at the concrete
parsed UUID. -/
theorem c5_witness :
    (buildSipInputFromV7 uuidA).length = 10 ∧
      (buildSipInputFromV7 uuidA).getD 0 0 = uuidA.getD 6 0 &&& 15 :=
  ⟨(c5_amended.1 uuidA (by decide)).1, (c5_amended.1 uuidA (by decide)).2.1⟩

/-- Claim C6: the spec's concrete vectors under the fixed key, with the embedded
SipHash-2-4: encoding 018f2d9f-9a2a-7def-8c3f-7b1a2c4d5e6f gives
2463c780-7fca-4def-8c3f-7b1a2c4d5e6f and decodes back, and encoding
00000000-0000-7000-8000-000000000000 gives
22d97126-9609-4000-8000-000000000000. -/
theorem c6_concrete_vectors :
    Parse (asciiOf ("018f2d9f-9a2a-7def-8c3f-7b1a2c4d5e6f")) = .ok uuidA ∧
    Encode uuidA testKey = facadeA ∧
    Decode facadeA testKey = uuidA ∧
    Parse (asciiOf ("00000000-0000-7000-8000-000000000000")) = .ok uuidZ ∧
    Encode uuidZ testKey = facadeZ ∧
    UUIDString facadeA = asciiOf ("2463c780-7fca-4def-8c3f-7b1a2c4d5e6f") ∧
    UUIDString facadeZ = asciiOf ("22d97126-9609-4000-8000-000000000000") := by decide

/-- Claim C7: the timestamp accessors are exact and tolerant of wide values:
wr48be writes only the low 48 bits of its argument (bits 48 and above are
silently ignored), and reading the written bytes back yields the value
modulo 2 ^ 48. -/
theorem c7_timestamp_accessors (v : ℕ) (hv : v < 18446744073709551616) :
    (wr48be v).length = 6 ∧ wr48be v = wr48be (v % 281474976710656) ∧
      rd48be (wr48be v) = v % 281474976710656 := by
  refine ⟨rfl, ?_, rd48be_wr48be v⟩
  rw [wr48be_eq, wr48be_eq]
  simp only [List.cons.injEq, and_true]
  omega

/-- Claim C7 (witness): the accessor round trip at the 64-bit value
0x123456789ABCDEF0, whose top 16 bits are dropped. -/
theorem c7_witness :
    (1311768467463790320 : ℕ) < 18446744073709551616 ∧
      rd48be (wr48be 1311768467463790320) = 1311768467463790320 % 281474976710656 :=
  ⟨by decide, (c7_timestamp_accessors 1311768467463790320 (by decide)).2.2⟩

/-- Claim C8: Parse does not return a format error on every malformed string.
With hyphens at the four checked positions plus extra hyphens, the Go
source either accepts the string (returning a short-filled UUID and no
error) or panics with an out-of-bounds index s[36], instead of returning
ErrInvalidUUID as the spec requires. -/
theorem c8_parse_bug :
    Parse (asciiOf ("00000000-0000-0000-0000---0000000000")) =
      .ok [0, 0, 0, 0, 0, 0, 0, 0, 0, 0, 0, 0, 0, 0, 0, 0] ∧
    Parse (asciiOf ("00000000-0000-0000-0000--00000000000")) = .panicOOB := by decide

/-- The hex digit table inverts hexNibble on nibble values. -/
theorem hexNibble_digit (k : ℕ) (hk : k < 16) : hexNibble (hexdigits.getD k 0) = some k :=
  (by decide : ∀ k < 16, hexNibble (hexdigits.getD k 0) = some k) k hk

/-- No hex digit character is a hyphen. -/
theorem hexdigit_ne_dash (k : ℕ) (hk : k < 16) : ¬hexdigits.getD k 0 = 45 :=
  (by decide : ∀ k < 16, ¬hexdigits.getD k 0 = 45) k hk

/-- Reassembling the two nibbles of a byte gives the byte back. -/
theorem byte_recombine (b : ℕ) (hb : b < 256) :
    ((b >>> 4) &&& 15) <<< 4 ||| (b &&& 15) = b :=
  (by decide : ∀ b < 256, ((b >>> 4) &&& 15) <<< 4 ||| (b &&& 15) = b) b hb

/-- Skipping a hyphen in the parse loop. -/
theorem parse_step_dash (rest acc : List ℕ) :
    parseHexLoop (45 :: rest) acc = parseHexLoop rest acc := by
  simp only [parseHexLoop, Nat.reduceEqDiff, if_true]

/-- Consuming one formatted byte (two hex digits) in the parse loop. -/
theorem parse_step_byte (b : ℕ) (hb : b < 256) (rest acc : List ℕ) (hacc : acc.length < 16) :
    parseHexLoop (hexdigits.getD ((b >>> 4) &&& 15) 0 :: hexdigits.getD (b &&& 15) 0 :: rest)
      acc = parseHexLoop rest (acc ++ [b]) := by
  simp only [parseHexLoop, hexNibble_digit _ (and15_lt _),
    if_neg (hexdigit_ne_dash _ (and15_lt _)), if_pos hacc, byte_recombine b hb]

/-- Parsing the canonical string of a well-formed UUID recovers the UUID. -/
theorem parse_format (u : List ℕ) (hu : validUUID u) : Parse (UUIDString u) = .ok u := by
  obtain ⟨hlen, hmem⟩ := hu
  obtain ⟨b0, b1, b2, b3, b4, b5, b6, b7, b8, b9, b10, b11, b12, b13, b14, b15, rfl⟩ :=
    eq_sixteen u hlen
  simp only [List.mem_cons, List.not_mem_nil, or_false, forall_eq_or_imp, forall_eq] at hmem
  obtain ⟨hb0, hb1, hb2, hb3, hb4, hb5, hb6, hb7, hb8, hb9, hb10, hb11, hb12, hb13, hb14,
    hb15⟩ := hmem
  simp only [UUIDString, stringLoop, Nat.reduceAdd, Nat.reduceEqDiff, or_true, true_or,
    or_false, false_or, or_self, ite_true, ite_false, List.cons_append, List.nil_append]
  simp only [Parse]
  rw [if_neg (by simp), if_neg (by simp)]
  rw [parse_step_byte b0 hb0 _ _ (by simp), parse_step_byte b1 hb1 _ _ (by simp),
    parse_step_byte b2 hb2 _ _ (by simp), parse_step_byte b3 hb3 _ _ (by simp),
    parse_step_dash, parse_step_byte b4 hb4 _ _ (by simp),
    parse_step_byte b5 hb5 _ _ (by simp), parse_step_dash,
    parse_step_byte b6 hb6 _ _ (by simp), parse_step_byte b7 hb7 _ _ (by simp),
    parse_step_dash, parse_step_byte b8 hb8 _ _ (by simp),
    parse_step_byte b9 hb9 _ _ (by simp), parse_step_dash,
    parse_step_byte b10 hb10 _ _ (by simp), parse_step_byte b11 hb11 _ _ (by simp),
    parse_step_byte b12 hb12 _ _ (by simp), parse_step_byte b13 hb13 _ _ (by simp),
    parse_step_byte b14 hb14 _ _ (by simp), parse_step_byte b15 hb15 _ _ (by simp)]
  simp [parseHexLoop]

/-- A list of length 36 is a 36-element literal list. -/
theorem eq_thirtysix (s : List ℕ) (h : s.length = 36) :
    ∃ c0 c1 c2 c3 c4 c5 c6 c7 c8 c9 c10 c11 c12 c13 c14 c15 c16 c17 c18 c19 c20 c21 c22 c23
      c24 c25 c26 c27 c28 c29 c30 c31 c32 c33 c34 c35,
      s = c0 :: c1 :: c2 :: c3 :: c4 :: c5 :: c6 :: c7 :: c8 :: c9 :: c10 :: c11 :: c12 ::
        c13 :: c14 :: c15 :: c16 :: c17 :: c18 :: c19 :: c20 :: c21 :: c22 :: c23 :: c24 ::
        c25 :: c26 :: c27 :: c28 :: c29 :: c30 :: c31 :: c32 :: c33 :: c34 :: c35 :: [] := by
  rcases s with _ | ⟨c0, s⟩
  · simp at h
  rcases s with _ | ⟨c1, s⟩
  · simp at h
  rcases s with _ | ⟨c2, s⟩
  · simp at h
  rcases s with _ | ⟨c3, s⟩
  · simp at h
  rcases s with _ | ⟨c4, s⟩
  · simp at h
  rcases s with _ | ⟨c5, s⟩
  · simp at h
  rcases s with _ | ⟨c6, s⟩
  · simp at h
  rcases s with _ | ⟨c7, s⟩
  · simp at h
  rcases s with _ | ⟨c8, s⟩
  · simp at h
  rcases s with _ | ⟨c9, s⟩
  · simp at h
  rcases s with _ | ⟨c10, s⟩
  · simp at h
  rcases s with _ | ⟨c11, s⟩
  · simp at h
  rcases s with _ | ⟨c12, s⟩
  · simp at h
  rcases s with _ | ⟨c13, s⟩
  · simp at h
  rcases s with _ | ⟨c14, s⟩
  · simp at h
  rcases s with _ | ⟨c15, s⟩
  · simp at h
  rcases s with _ | ⟨c16, s⟩
  · simp at h
  rcases s with _ | ⟨c17, s⟩
  · simp at h
  rcases s with _ | ⟨c18, s⟩
  · simp at h
  rcases s with _ | ⟨c19, s⟩
  · simp at h
  rcases s with _ | ⟨c20, s⟩
  · simp at h
  rcases s with _ | ⟨c21, s⟩
  · simp at h
  rcases s with _ | ⟨c22, s⟩
  · simp at h
  rcases s with _ | ⟨c23, s⟩
  · simp at h
  rcases s with _ | ⟨c24, s⟩
  · simp at h
  rcases s with _ | ⟨c25, s⟩
  · simp at h
  rcases s with _ | ⟨c26, s⟩
  · simp at h
  rcases s with _ | ⟨c27, s⟩
  · simp at h
  rcases s with _ | ⟨c28, s⟩
  · simp at h
  rcases s with _ | ⟨c29, s⟩
  · simp at h
  rcases s with _ | ⟨c30, s⟩
  · simp at h
  rcases s with _ | ⟨c31, s⟩
  · simp at h
  rcases s with _ | ⟨c32, s⟩
  · simp at h
  rcases s with _ | ⟨c33, s⟩
  · simp at h
  rcases s with _ | ⟨c34, s⟩
  · simp at h
  rcases s with _ | ⟨c35, s⟩
  · simp at h
  simp only [List.length_cons] at h
  have hnil : s.length = 0 := by omega
  rw [List.length_eq_zero] at hnil
  subst hnil
  exact ⟨c0, c1, c2, c3, c4, c5, c6, c7, c8, c9, c10, c11, c12, c13, c14, c15, c16, c17, c18,
    c19, c20, c21, c22, c23, c24, c25, c26, c27, c28, c29, c30, c31, c32, c33, c34, c35, rfl⟩

/-- Facts about a lowercase hex digit character: its value is a nibble,
hexNibble accepts it, and the digit table maps the value back to it. -/
theorem lower_hex_spec (c : ℕ) (h : isLowerHexDigit c) :
    hexVal c < 16 ∧ hexNibble c = some (hexVal c) ∧ hexdigits.getD (hexVal c) 0 = c := by
  have hc : c < 103 := by
    rcases h with ⟨h1, h2⟩ | ⟨h1, h2⟩ <;> omega
  exact (by decide : ∀ x < 103, isLowerHexDigit x →
    hexVal x < 16 ∧ hexNibble x = some (hexVal x) ∧ hexdigits.getD (hexVal x) 0 = x) c hc h

/-- Packing two nibbles gives a byte. -/
theorem pack_lt (x y : ℕ) (hx : x < 16) (hy : y < 16) : x <<< 4 ||| y < 256 :=
  (by decide : ∀ x < 16, ∀ y < 16, x <<< 4 ||| y < 256) x hx y hy

/-- High nibble of two packed nibbles. -/
theorem pack_hi (x y : ℕ) (hx : x < 16) (hy : y < 16) : (x <<< 4 ||| y) >>> 4 &&& 15 = x :=
  (by decide : ∀ x < 16, ∀ y < 16, (x <<< 4 ||| y) >>> 4 &&& 15 = x) x hx y hy

/-- Low nibble of two packed nibbles. -/
theorem pack_lo (x y : ℕ) (hx : x < 16) (hy : y < 16) : (x <<< 4 ||| y) &&& 15 = y :=
  (by decide : ∀ x < 16, ∀ y < 16, (x <<< 4 ||| y) &&& 15 = y) x hx y hy

/-- Every canonical lowercase hyphenated string is the formatted form of a
UUID that Parse recovers from it. -/
theorem format_parse_canonical (s : List ℕ) (hs : isCanonical s) :
    ∃ u, Parse s = .ok u ∧ UUIDString u = s := by
  obtain ⟨hlen, hpos⟩ := hs
  obtain ⟨c0, c1, c2, c3, c4, c5, c6, c7, c8, c9, c10, c11, c12, c13, c14, c15, c16, c17, c18,
    c19, c20, c21, c22, c23, c24, c25, c26, c27, c28, c29, c30, c31, c32, c33, c34, c35,
    rfl⟩ := eq_thirtysix s hlen
  have h0 := hpos 0 (by norm_num)
  have h1 := hpos 1 (by norm_num)
  have h2 := hpos 2 (by norm_num)
  have h3 := hpos 3 (by norm_num)
  have h4 := hpos 4 (by norm_num)
  have h5 := hpos 5 (by norm_num)
  have h6 := hpos 6 (by norm_num)
  have h7 := hpos 7 (by norm_num)
  have h8 := hpos 8 (by norm_num)
  have h9 := hpos 9 (by norm_num)
  have h10 := hpos 10 (by norm_num)
  have h11 := hpos 11 (by norm_num)
  have h12 := hpos 12 (by norm_num)
  have h13 := hpos 13 (by norm_num)
  have h14 := hpos 14 (by norm_num)
  have h15 := hpos 15 (by norm_num)
  have h16 := hpos 16 (by norm_num)
  have h17 := hpos 17 (by norm_num)
  have h18 := hpos 18 (by norm_num)
  have h19 := hpos 19 (by norm_num)
  have h20 := hpos 20 (by norm_num)
  have h21 := hpos 21 (by norm_num)
  have h22 := hpos 22 (by norm_num)
  have h23 := hpos 23 (by norm_num)
  have h24 := hpos 24 (by norm_num)
  have h25 := hpos 25 (by norm_num)
  have h26 := hpos 26 (by norm_num)
  have h27 := hpos 27 (by norm_num)
  have h28 := hpos 28 (by norm_num)
  have h29 := hpos 29 (by norm_num)
  have h30 := hpos 30 (by norm_num)
  have h31 := hpos 31 (by norm_num)
  have h32 := hpos 32 (by norm_num)
  have h33 := hpos 33 (by norm_num)
  have h34 := hpos 34 (by norm_num)
  have h35 := hpos 35 (by norm_num)
  simp only [List.getD_cons_zero, List.getD_cons_succ, Nat.reduceEqDiff, or_true, true_or,
    or_false, false_or, or_self, ite_true, ite_false] at h0 h1 h2 h3 h4 h5 h6 h7 h8 h9 h10 h11
  simp only [List.getD_cons_zero, List.getD_cons_succ, Nat.reduceEqDiff, or_true, true_or,
    or_false, false_or, or_self, ite_true, ite_false] at h12 h13 h14 h15 h16 h17 h18 h19 h20
  simp only [List.getD_cons_zero, List.getD_cons_succ, Nat.reduceEqDiff, or_true, true_or,
    or_false, false_or, or_self, ite_true, ite_false] at h21 h22 h23 h24 h25 h26 h27 h28 h29
  simp only [List.getD_cons_zero, List.getD_cons_succ, Nat.reduceEqDiff, or_true, true_or,
    or_false, false_or, or_self, ite_true, ite_false] at h30 h31 h32 h33 h34 h35
  subst h8
  subst h13
  subst h18
  subst h23
  obtain ⟨hk0, -, hc0⟩ := lower_hex_spec c0 h0
  obtain ⟨hk1, -, hc1⟩ := lower_hex_spec c1 h1
  obtain ⟨hk2, -, hc2⟩ := lower_hex_spec c2 h2
  obtain ⟨hk3, -, hc3⟩ := lower_hex_spec c3 h3
  obtain ⟨hk4, -, hc4⟩ := lower_hex_spec c4 h4
  obtain ⟨hk5, -, hc5⟩ := lower_hex_spec c5 h5
  obtain ⟨hk6, -, hc6⟩ := lower_hex_spec c6 h6
  obtain ⟨hk7, -, hc7⟩ := lower_hex_spec c7 h7
  obtain ⟨hk9, -, hc9⟩ := lower_hex_spec c9 h9
  obtain ⟨hk10, -, hc10⟩ := lower_hex_spec c10 h10
  obtain ⟨hk11, -, hc11⟩ := lower_hex_spec c11 h11
  obtain ⟨hk12, -, hc12⟩ := lower_hex_spec c12 h12
  obtain ⟨hk14, -, hc14⟩ := lower_hex_spec c14 h14
  obtain ⟨hk15, -, hc15⟩ := lower_hex_spec c15 h15
  obtain ⟨hk16, -, hc16⟩ := lower_hex_spec c16 h16
  obtain ⟨hk17, -, hc17⟩ := lower_hex_spec c17 h17
  obtain ⟨hk19, -, hc19⟩ := lower_hex_spec c19 h19
  obtain ⟨hk20, -, hc20⟩ := lower_hex_spec c20 h20
  obtain ⟨hk21, -, hc21⟩ := lower_hex_spec c21 h21
  obtain ⟨hk22, -, hc22⟩ := lower_hex_spec c22 h22
  obtain ⟨hk24, -, hc24⟩ := lower_hex_spec c24 h24
  obtain ⟨hk25, -, hc25⟩ := lower_hex_spec c25 h25
  obtain ⟨hk26, -, hc26⟩ := lower_hex_spec c26 h26
  obtain ⟨hk27, -, hc27⟩ := lower_hex_spec c27 h27
  obtain ⟨hk28, -, hc28⟩ := lower_hex_spec c28 h28
  obtain ⟨hk29, -, hc29⟩ := lower_hex_spec c29 h29
  obtain ⟨hk30, -, hc30⟩ := lower_hex_spec c30 h30
  obtain ⟨hk31, -, hc31⟩ := lower_hex_spec c31 h31
  obtain ⟨hk32, -, hc32⟩ := lower_hex_spec c32 h32
  obtain ⟨hk33, -, hc33⟩ := lower_hex_spec c33 h33
  obtain ⟨hk34, -, hc34⟩ := lower_hex_spec c34 h34
  obtain ⟨hk35, -, hc35⟩ := lower_hex_spec c35 h35
  have hvalid : validUUID [hexVal c0 <<< 4 ||| hexVal c1, hexVal c2 <<< 4 ||| hexVal c3,
      hexVal c4 <<< 4 ||| hexVal c5, hexVal c6 <<< 4 ||| hexVal c7,
      hexVal c9 <<< 4 ||| hexVal c10, hexVal c11 <<< 4 ||| hexVal c12,
      hexVal c14 <<< 4 ||| hexVal c15, hexVal c16 <<< 4 ||| hexVal c17,
      hexVal c19 <<< 4 ||| hexVal c20, hexVal c21 <<< 4 ||| hexVal c22,
      hexVal c24 <<< 4 ||| hexVal c25, hexVal c26 <<< 4 ||| hexVal c27,
      hexVal c28 <<< 4 ||| hexVal c29, hexVal c30 <<< 4 ||| hexVal c31,
      hexVal c32 <<< 4 ||| hexVal c33, hexVal c34 <<< 4 ||| hexVal c35] := by
    refine ⟨rfl, ?_⟩
    intro b hb
    simp only [List.mem_cons, List.not_mem_nil, or_false] at hb
    rcases hb with rfl | rfl | rfl | rfl | rfl | rfl | rfl | rfl | rfl | rfl | rfl | rfl |
      rfl | rfl | rfl | rfl <;>
      exact pack_lt _ _ (by assumption) (by assumption)
  have hfmt : UUIDString [hexVal c0 <<< 4 ||| hexVal c1, hexVal c2 <<< 4 ||| hexVal c3,
      hexVal c4 <<< 4 ||| hexVal c5, hexVal c6 <<< 4 ||| hexVal c7,
      hexVal c9 <<< 4 ||| hexVal c10, hexVal c11 <<< 4 ||| hexVal c12,
      hexVal c14 <<< 4 ||| hexVal c15, hexVal c16 <<< 4 ||| hexVal c17,
      hexVal c19 <<< 4 ||| hexVal c20, hexVal c21 <<< 4 ||| hexVal c22,
      hexVal c24 <<< 4 ||| hexVal c25, hexVal c26 <<< 4 ||| hexVal c27,
      hexVal c28 <<< 4 ||| hexVal c29, hexVal c30 <<< 4 ||| hexVal c31,
      hexVal c32 <<< 4 ||| hexVal c33, hexVal c34 <<< 4 ||| hexVal c35] =
      c0 :: c1 :: c2 :: c3 :: c4 :: c5 :: c6 :: c7 :: 45 :: c9 :: c10 :: c11 :: c12 :: 45 ::
        c14 :: c15 :: c16 :: c17 :: 45 :: c19 :: c20 :: c21 :: c22 :: 45 :: c24 :: c25 ::
        c26 :: c27 :: c28 :: c29 :: c30 :: c31 :: c32 :: c33 :: c34 :: c35 :: [] := by
    simp only [UUIDString, stringLoop, Nat.reduceAdd, Nat.reduceEqDiff, or_true, true_or,
      or_false, false_or, or_self, ite_true, ite_false, List.cons_append, List.nil_append,
      pack_hi, pack_lo, hk0, hk1, hk2, hk3, hk4, hk5, hk6, hk7, hk9, hk10, hk11, hk12, hk14,
      hk15, hk16, hk17, hk19, hk20, hk21, hk22, hk24, hk25, hk26, hk27, hk28, hk29, hk30,
      hk31, hk32, hk33, hk34, hk35, hc0, hc1, hc2, hc3, hc4, hc5, hc6, hc7, hc9, hc10, hc11,
      hc12, hc14, hc15, hc16, hc17, hc19, hc20, hc21, hc22, hc24, hc25, hc26, hc27, hc28,
      hc29, hc30, hc31, hc32, hc33, hc34, hc35]
  exact ⟨_, hfmt ▸ parse_format _ hvalid, hfmt⟩

/-- Claim C9: the text codec round-trips exactly: parsing the canonical string
of any 16-byte UUID returns that UUID, and formatting the parse of any
canonical lowercase hyphenated string reproduces the string. -/
theorem c9_text_roundtrip :
    (∀ u : List ℕ, validUUID u → Parse (UUIDString u) = .ok u) ∧
    (∀ s : List ℕ, isCanonical s → ∃ u, Parse s = .ok u ∧ UUIDString u = s) :=
  ⟨parse_format, format_parse_canonical⟩

/-- Claim C9 (witness): both directions at the concrete UUID
018f2d9f-9a2a-7def-8c3f-7b1a2c4d5e6f and its canonical string. -/
theorem c9_witness :
    validUUID uuidA ∧ Parse (UUIDString uuidA) = .ok uuidA ∧
      isCanonical (asciiOf ("018f2d9f-9a2a-7def-8c3f-7b1a2c4d5e6f")) ∧
      ∃ u, Parse (asciiOf ("018f2d9f-9a2a-7def-8c3f-7b1a2c4d5e6f")) = .ok u ∧
        UUIDString u = asciiOf ("018f2d9f-9a2a-7def-8c3f-7b1a2c4d5e6f") :=
  ⟨by decide, c9_text_roundtrip.1 uuidA (by decide), by decide,
    c9_text_roundtrip.2 _ (by decide)⟩

end Uuid47
